import Mathlib

/-!
Shallow embedding of `ome_zarr/bdvh5.py` (class `BigDataViewerHDF5`).

The HDF5 source container is modelled by `H5File`: the top-level entry
names in enumeration order (`keys`), the per-channel `resolutions` and
`subdivisions` metadata datasets, and the nested
`<time>/<channel>/<level>/cells` leaf datasets.  The zarr destination
store is modelled by `Store`, an association list from level name to
`ZArray`.  Python exceptions are modelled by `Except` with the error
kind recorded in `Err`; exceptions raised inside `to_zarr` additionally
carry the destination-store state at the moment of failure.
-/

deriving instance DecidableEq for Except

/-- Contents of one leaf `cells` dataset, indexed as z / y / x. -/
abbrev Cells := List (List (List Int))

/-- An HDF5 leaf dataset: its shape, its on-disk chunk shape, and its data. -/
structure Dataset where
  shape : List Nat
  chunks : List Nat
  cells : Cells
deriving DecidableEq

/-- A Python slice `lo:hi` used as a spatial selector. -/
structure Slice where
  lo : Nat
  hi : Nat
deriving DecidableEq

/-- Slicing a list by a Python slice `lo:hi` (clamping, as Python does). -/
def sliceList (s : Slice) (l : List α) : List α :=
  (l.drop s.lo).take (s.hi - s.lo)

/-- Read `cells[z, y, x]` for slice selectors `z`, `y`, `x`. -/
def sliceCells (z y x : Slice) (c : Cells) : Cells :=
  (sliceList z c).map (fun p => (sliceList y p).map (fun r => sliceList x r))

/-- The source HDF5 container, as `BigDataViewerHDF5` sees it. -/
structure H5File where
  keys : List String
  resolutions : List (String × List (List Int))
  subdivisions : List (String × List (List Nat))
  cells : List (String × List (String × List Dataset))
deriving DecidableEq

/-- Association-list lookup, modelling `h5[...]` / `dict[...]` lookup. -/
def lookupS (l : List (String × α)) (k : String) : Option α :=
  match l with
  | [] => none
  | (k2, v) :: rest => if k2 = k then some v else lookupS rest k

/-- Kinds of Python exceptions the embedded code can raise. -/
inductive Err
  | keyError
  | indexError
  | containsArrayError
deriving DecidableEq

/-- Python `s.startswith(c)` for a one-character pattern: the first character
of `s` equals `c` (`False` on the empty string). -/
def strStarts (s : String) (c : Char) : Bool :=
  match s.data with
  | [] => false
  | a :: _ => a == c

/-- `channel_keys`: top-level entries whose name starts with `s`. -/
def channel_keys (f : H5File) : List String :=
  f.keys.filter (fun s => strStarts s 's')

/-- `tseries_keys`: top-level entries whose name starts with `t`. -/
def tseries_keys (f : H5File) : List String :=
  f.keys.filter (fun s => strStarts s 't')

/-- `num_channels`. -/
def num_channels (f : H5File) : Nat := (channel_keys f).length

/-- `num_tseries`. -/
def num_tseries (f : H5File) : Nat := (tseries_keys f).length

/-- Effectful map, modelling a Python comprehension that may raise. -/
def exMap (g : α → Except Err β) : List α → Except Err (List β)
  | [] => .ok []
  | a :: as =>
    match g a with
    | .error e => .error e
    | .ok b =>
      match exMap g as with
      | .error e => .error e
      | .ok bs => .ok (b :: bs)

/-- `scales`: per channel, the `resolutions` dataset (KeyError if missing). -/
def scalesE (f : H5File) : Except Err (List (String × List (List Int))) :=
  exMap (fun c =>
    match lookupS f.resolutions c with
    | none => .error .keyError
    | some r => .ok (c, r)) (channel_keys f)

/-- `chunk_sizes`: per channel, the `subdivisions` dataset. -/
def chunk_sizesE (f : H5File) : Except Err (List (String × List (List Nat))) :=
  exMap (fun c =>
    match lookupS f.subdivisions c with
    | none => .error .keyError
    | some r => .ok (c, r)) (channel_keys f)

/-- `multiscales`: the common `range(L)` when all per-channel scale-table
lengths agree (`len(set(lengths)) == 1`), the raw length list otherwise. -/
def multiscalesE (f : H5File) : Except Err (List Nat) :=
  match scalesE f with
  | .error e => .error e
  | .ok scs =>
    match scs.map (fun p => p.2.length) with
    | [] => .ok []
    | l :: rest =>
      if rest.all (fun x => x == l) then .ok (List.range l) else .ok (l :: rest)

/-- The level list `[h5[t][c][str(i)].cells for i in range(n)]`; a missing
numbered sub-group is a KeyError. -/
def levelsFromGroup (lst : List Dataset) (n : Nat) : Except Err (List Dataset) :=
  exMap (fun i =>
    match lst[i]? with
    | none => .error Err.keyError
    | some d => .ok d) (List.range n)

/-- `arrays`: the memoized table time-key → channel-key → level list, built
by looking up `h5[t][c][str(i)].cells` for `i in range(len(scales[c]))`. -/
def arraysE (f : H5File) : Except Err (List (String × List (String × List Dataset))) :=
  match scalesE f with
  | .error e => .error e
  | .ok scs =>
    exMap (fun t =>
      match exMap (fun c =>
        match lookupS scs c with
        | none => .error Err.keyError
        | some sc =>
          match lookupS f.cells t with
          | none => .error Err.keyError
          | some tg =>
            match lookupS tg c with
            | none => .error Err.keyError
            | some lst =>
              match levelsFromGroup lst sc.length with
              | .error e => .error e
              | .ok ds => .ok (c, ds)) (channel_keys f) with
      | .error e => .error e
      | .ok row => .ok (t, row)) (tseries_keys f)

/-- Python sequence indexing with an integer index: negative indices wrap
by the length, anything still out of range is an IndexError (`none`). -/
def pyIndex (l : List α) (i : Int) : Option α :=
  let j : Int := if i < 0 then i + l.length else i
  if j < 0 then none else l[j.toNat]?

/-- `__getitem__`: resolve `t` and `ch` positionally into the discovered key
tuples, then read `arrays[t][ch][res][z, y, x]`. -/
def getitem (f : H5File) (res t ch : Int) (z y x : Slice) : Except Err Cells :=
  match pyIndex (tseries_keys f) t with
  | none => .error .indexError
  | some tk =>
    match pyIndex (channel_keys f) ch with
    | none => .error .indexError
    | some ck =>
      match arraysE f with
      | .error e => .error e
      | .ok tbl =>
        match lookupS tbl tk with
        | none => .error .keyError
        | some row =>
          match lookupS row ck with
          | none => .error .keyError
          | some lst =>
            match pyIndex lst res with
            | none => .error .indexError
            | some ds => .ok (sliceCells z y x ds.cells)

/-- One destination zarr array. -/
structure ZArray where
  shape : List Nat
  chunks : List Nat
  data : List (List Cells)
deriving DecidableEq

/-- The destination zarr group: arrays keyed by resolution-level name. -/
abbrev Store := List (Nat × ZArray)

/-- Lookup of a named array in the destination group. -/
def lookupN (s : Store) (k : Nat) : Option ZArray :=
  match s with
  | [] => none
  | (k2, v) :: rest => if k2 = k then some v else lookupN rest k

/-- A freshly allocated spatial volume of the given 3-d shape. -/
def zeros3 : List Nat → Cells
  | [a, b, c] => List.replicate a (List.replicate b (List.replicate c 0))
  | _ => []

/-- `_arr[_t, _ch, :] = v`: overwrite one (time, channel) slot. -/
def setSlot (d : List (List Cells)) (t ch : Nat) (v : Cells) : List (List Cells) :=
  match d[t]? with
  | none => d
  | some row => d.set t (row.set ch v)

/-- The double copy loop `for _t ...: for _ch ...: _arr[_t, _ch, :] = v`. -/
def fillAll (tn cn : Nat) (v : Cells) (d : List (List Cells)) : List (List Cells) :=
  (List.range tn).foldl
    (fun acc t => (List.range cn).foldl (fun acc2 ch => setSlot acc2 t ch v) acc) d

/-- `root.empty_like(i, dset, shape=(T, C, *dset.shape), chunks=(1, 1,
*dset.chunks))` followed by the copy loop writing `dset` into every slot. -/
def mkLevelArray (tn cn : Nat) (dset : Dataset) : ZArray :=
  { shape := tn :: cn :: dset.shape
    chunks := 1 :: 1 :: dset.chunks
    data := fillAll tn cn dset.cells
      (List.replicate tn (List.replicate cn (zeros3 dset.shape))) }

/-- `self.arrays[t0][c0][i]`: two dict lookups then a list index. -/
def getDset (tbl : List (String × List (String × List Dataset))) (t0 c0 : String)
    (i : Nat) : Except Err Dataset :=
  match lookupS tbl t0 with
  | none => .error .keyError
  | some row =>
    match lookupS row c0 with
    | none => .error .keyError
    | some lst =>
      match lst[i]? with
      | none => .error .indexError
      | some d => .ok d

/-- The body of `for i in self.multiscales`, threading the store.  A raised
exception carries the store state at the moment it is raised. -/
def toZarrLoop (f : H5File) : List Nat → Store → Except (Err × Store) Store
  | [], store => .ok store
  | i :: rest, store =>
    match arraysE f with
    | .error e => .error (e, store)
    | .ok tbl =>
      match (tseries_keys f)[0]? with
      | none => .error (.indexError, store)
      | some t0 =>
        match (channel_keys f)[0]? with
        | none => .error (.indexError, store)
        | some c0 =>
          match getDset tbl t0 c0 i with
          | .error e => .error (e, store)
          | .ok dset =>
            match lookupN store i with
            | some _ => .error (.containsArrayError, store)
            | none =>
              toZarrLoop f rest
                ((i, mkLevelArray (num_tseries f) (num_channels f) dset) :: store)

/-- `to_zarr`: `zarr.group(store, overwrite=...)` wipes the store when the
flag is set and opens it unchanged otherwise, then the per-level loop runs. -/
def toZarr (f : H5File) (ow : Bool) (store : Store) : Except (Err × Store) Store :=
  let store1 := if ow then ([] : Store) else store
  match multiscalesE f with
  | .error e => .error (e, store1)
  | .ok ms => toZarrLoop f ms store1

/-- Direct read of the source dataset at path `<tk>/<ck>/<lvl>/cells`. -/
def sourceCells (f : H5File) (tk ck : String) (lvl : Nat) : Option Dataset :=
  match lookupS f.cells tk with
  | none => none
  | some tg =>
    match lookupS tg ck with
    | none => none
    | some lst => lst[lvl]?

/-- The default `Dataset` used only as a `getD` placeholder. -/
def dfltDS : Dataset := ⟨[], [], []⟩

/-- The scale table of channel `c` (empty when the channel is absent). -/
def sctab (f : H5File) (c : String) : List (List Int) :=
  (lookupS f.resolutions c).getD []

/-- The sub-groups of time-point `t` (empty when absent). -/
def tgroup (f : H5File) (t : String) : List (String × List Dataset) :=
  (lookupS f.cells t).getD []

/-- The level-indexed `cells` datasets under `<t>/<c>` (empty when absent). -/
def dsetsOf (f : H5File) (t c : String) : List Dataset :=
  (lookupS (tgroup f t) c).getD []

/-- Well-formedness of a source container: every discovered channel has a
`resolutions` table, and every `<t>/<c>` sub-tree exists and holds at least
as many levels as that channel's scale table announces. -/
def WF (f : H5File) : Prop :=
  (∀ c ∈ channel_keys f, (lookupS f.resolutions c).isSome) ∧
  (∀ t ∈ tseries_keys f, (lookupS f.cells t).isSome) ∧
  (∀ t ∈ tseries_keys f, ∀ c ∈ channel_keys f,
    (lookupS (tgroup f t) c).isSome ∧ (sctab f c).length ≤ (dsetsOf f t c).length)

instance (f : H5File) : Decidable (WF f) := by
  unfold WF; infer_instance

/-- The value `scales` takes on a well-formed container. -/
def pureScales (f : H5File) : List (String × List (List Int)) :=
  (channel_keys f).map (fun c => (c, sctab f c))

/-- The level list `arrays[t][c]` takes on a well-formed container. -/
def levelList (f : H5File) (t c : String) : List Dataset :=
  (List.range (sctab f c).length).map (fun i => (dsetsOf f t c).getD i dfltDS)

/-- The value `arrays` takes on a well-formed container. -/
def pureArrays (f : H5File) : List (String × List (String × List Dataset)) :=
  (tseries_keys f).map (fun t => (t, (channel_keys f).map (fun c => (c, levelList f t c))))

/-- Level-0 dataset of channel `s00` in the standard example container. -/
def dsA0 : Dataset := ⟨[1, 1, 2], [1, 1, 2], [[[10, 11]]]⟩

/-- Level-1 dataset of channel `s00` in the standard example container. -/
def dsA1 : Dataset := ⟨[1, 1, 1], [1, 1, 1], [[[12]]]⟩

/-- Level-0 dataset of channel `s01` in the standard example container. -/
def dsB0 : Dataset := ⟨[1, 1, 2], [1, 1, 2], [[[20, 21]]]⟩

/-- Level-1 dataset of channel `s01` in the standard example container. -/
def dsB1 : Dataset := ⟨[1, 1, 1], [1, 1, 1], [[[22]]]⟩

/-- A standard well-formed container: channels `s00`, `s01`, one time point,
two resolution levels, distinct data per channel. -/
def fA : H5File :=
  { keys := ["s00", "s01", "t00000"]
    resolutions := [("s00", [[1, 1, 1], [2, 2, 2]]), ("s01", [[1, 1, 1], [2, 2, 2]])]
    subdivisions := [("s00", [[1, 1, 2], [1, 1, 1]]), ("s01", [[1, 1, 2], [1, 1, 1]])]
    cells := [("t00000", [("s00", [dsA0, dsA1]), ("s01", [dsB0, dsB1])])] }

/-- The store `to_zarr` produces from `fA` with overwrite. -/
def stA : Store := [(1, mkLevelArray 1 2 dsA1), (0, mkLevelArray 1 2 dsA0)]

/-- A container with no entry matching either naming convention. -/
def fEmpty : H5File :=
  { keys := ["__DATA_TYPES__", "raw"], resolutions := [], subdivisions := [], cells := [] }

/-- Another container with no entry matching either naming convention. -/
def fEmpty2 : H5File :=
  { keys := ["info"], resolutions := [], subdivisions := [], cells := [] }

/-- Dataset with spatial shape `[1, 1, 1]`. -/
def dsM0 : Dataset := ⟨[1, 1, 1], [1, 1, 1], [[[1]]]⟩

/-- Dataset with spatial shape `[2, 2, 2]`, disagreeing with `dsM0`. -/
def dsM1 : Dataset := ⟨[2, 2, 2], [2, 2, 2], [[[2, 2], [2, 2]], [[2, 2], [2, 2]]]⟩

/-- A container whose two channels agree on the level count but disagree on
spatial shape and chunk geometry at level 0. -/
def fMis : H5File :=
  { keys := ["s00", "s01", "t00000"]
    resolutions := [("s00", [[1, 1, 1]]), ("s01", [[1, 1, 1]])]
    subdivisions := [("s00", [[1, 1, 1]]), ("s01", [[2, 2, 2]])]
    cells := [("t00000", [("s00", [dsM0]), ("s01", [dsM1])])] }

/-- A container whose channels report different resolution-level counts:
`s00` has two levels, `s01` has one. -/
def fDiv : H5File :=
  { keys := ["s00", "s01", "t00000"]
    resolutions := [("s00", [[1, 1, 1], [2, 2, 2]]), ("s01", [[1, 1, 1]])]
    subdivisions := [("s00", [[1, 1, 1], [1, 1, 1]]), ("s01", [[1, 1, 1]])]
    cells := [("t00000", [("s00", [dsM0, dsM0]), ("s01", [dsM0])])] }

theorem exMap_congr_ok {g : α → Except Err β} {h : α → β} {l : List α}
    (H : ∀ a ∈ l, g a = .ok (h a)) : exMap g l = .ok (l.map h) := by
  induction l with
  | nil => rfl
  | cons a as ih =>
    have h1 : g a = .ok (h a) := H a (by simp)
    have h2 : exMap g as = .ok (as.map h) := ih (fun x hx => H x (by simp [hx]))
    simp [exMap, h1, h2]

theorem lookupS_map_self {α : Type} (h : String → α) (l : List String) (c : String)
    (hc : c ∈ l) : lookupS (l.map (fun a => (a, h a))) c = some (h c) := by
  induction l with
  | nil => cases hc
  | cons a as ih =>
    by_cases hac : a = c
    · subst hac; simp [lookupS]
    · have hmem : c ∈ as := by
        rcases List.mem_cons.mp hc with h1 | h1
        · exact absurd h1.symm hac
        · exact h1
      simp [lookupS, hac, ih hmem]

theorem isSome_eq_some {o : Option α} (h : o.isSome) : o = some (o.getD d) := by
  cases o with
  | none => cases h
  | some v => rfl

theorem scalesE_of_WF (f : H5File) (hwf : WF f) : scalesE f = .ok (pureScales f) := by
  apply exMap_congr_ok
  intro c hc
  have h1 : lookupS f.resolutions c = some (sctab f c) := isSome_eq_some (hwf.1 c hc)
  simp only [h1]

theorem getElem?_eq_getD {l : List α} {i : Nat} (h : i < l.length) (d : α) :
    l[i]? = some (l.getD i d) := by
  rw [List.getElem?_eq_getElem h, List.getD_eq_getElem l d h]

theorem levelsFromGroup_ok (lst : List Dataset) (n : Nat) (h : n ≤ lst.length) :
    levelsFromGroup lst n = .ok ((List.range n).map (fun i => lst.getD i dfltDS)) := by
  apply exMap_congr_ok
  intro i hi
  have hilt : i < lst.length := lt_of_lt_of_le (List.mem_range.mp hi) h
  simp only [getElem?_eq_getD hilt dfltDS]

theorem lookupS_pureScales (f : H5File) (c : String) (hc : c ∈ channel_keys f) :
    lookupS (pureScales f) c = some (sctab f c) :=
  lookupS_map_self (fun a => sctab f a) (channel_keys f) c hc

theorem arraysE_of_WF (f : H5File) (hwf : WF f) : arraysE f = .ok (pureArrays f) := by
  unfold arraysE
  rw [scalesE_of_WF f hwf]
  apply exMap_congr_ok
  intro t ht
  have hinner : exMap (fun c =>
      match lookupS (pureScales f) c with
      | none => Except.error Err.keyError
      | some sc =>
        match lookupS f.cells t with
        | none => Except.error Err.keyError
        | some tg =>
          match lookupS tg c with
          | none => Except.error Err.keyError
          | some lst =>
            match levelsFromGroup lst sc.length with
            | .error e => .error e
            | .ok ds => .ok (c, ds)) (channel_keys f) =
      .ok ((channel_keys f).map (fun c => (c, levelList f t c))) := by
    apply exMap_congr_ok
    intro c hc
    have h2 := lookupS_pureScales f c hc
    have h3 : lookupS f.cells t = some (tgroup f t) := isSome_eq_some (hwf.2.1 t ht)
    have h4 : lookupS (tgroup f t) c = some (dsetsOf f t c) :=
      isSome_eq_some ((hwf.2.2 t ht c hc).1)
    have h5 : levelsFromGroup (dsetsOf f t c) (sctab f c).length = .ok (levelList f t c) :=
      levelsFromGroup_ok _ _ (hwf.2.2 t ht c hc).2
    simp only [h2, h3, h4, h5]
  simp only [hinner]

theorem getElem?_mem_of_eq : ∀ {l : List α} {n : Nat} {a : α}, l[n]? = some a → a ∈ l := by
  intro l
  induction l with
  | nil => intro n a h; cases h
  | cons b bs ih =>
    intro n a h
    cases n with
    | zero =>
      simp only [List.getElem?_cons_zero, Option.some.injEq] at h
      exact h ▸ List.mem_cons_self b bs
    | succ m =>
      simp only [List.getElem?_cons_succ] at h
      exact List.mem_cons_of_mem b (ih h)

theorem pyIndex_coe_nat (l : List α) (n : Nat) : pyIndex l (n : Int) = l[n]? := by
  have h0 : ¬ ((n : Int) < 0) := by omega
  simp only [pyIndex, if_neg h0, Int.toNat_natCast]

theorem pyIndex_none (l : List α) (i : Int)
    (h : i < -(l.length : Int) ∨ (l.length : Int) ≤ i) : pyIndex l i = none := by
  rcases h with h | h
  · have h2 : i < 0 := by omega
    have h3 : i + (l.length : Int) < 0 := by omega
    simp only [pyIndex, if_pos h2, if_pos h3]
  · have h2 : ¬ i < 0 := by omega
    have h3 : ¬ (i < 0) := h2
    simp only [pyIndex, if_neg h2, if_neg (by omega : ¬ (i : Int) < 0)]
    exact List.getElem?_eq_none (by omega)

theorem pyIndex_neg_eq (l : List α) (i : Int) (h1 : -(l.length : Int) ≤ i) (h2 : i < 0) :
    pyIndex l i = l[(i + l.length).toNat]? := by
  have h3 : ¬ (i + (l.length : Int) < 0) := by omega
  simp only [pyIndex, if_pos h2, if_neg h3]

theorem pyIndex_mem {l : List α} {i : Int} {a : α} (h : pyIndex l i = some a) : a ∈ l := by
  unfold pyIndex at h
  by_cases h0 : (if i < 0 then i + (l.length : Int) else i) < 0
  · simp only [if_pos h0] at h
    cases h
  · simp only [if_neg h0] at h
    exact getElem?_mem_of_eq h

theorem levelList_length (f : H5File) (t c : String) :
    (levelList f t c).length = (sctab f c).length := by
  simp [levelList]

theorem levelList_getElem? (f : H5File) (t c : String) (i : Nat) :
    (levelList f t c)[i]? =
      if i < (sctab f c).length then some ((dsetsOf f t c).getD i dfltDS) else none := by
  unfold levelList
  by_cases h : i < (sctab f c).length
  · rw [if_pos h, List.getElem?_map, List.getElem?_range h]
    rfl
  · rw [if_neg h, List.getElem?_eq_none]
    simpa using h

theorem sourceCells_of_WF (f : H5File) (hwf : WF f) (t c : String)
    (ht : t ∈ tseries_keys f) (hc : c ∈ channel_keys f) (i : Nat)
    (hi : i < (sctab f c).length) :
    sourceCells f t c i = some ((dsetsOf f t c).getD i dfltDS) := by
  have h3 : lookupS f.cells t = some (tgroup f t) := isSome_eq_some (hwf.2.1 t ht)
  have h4 : lookupS (tgroup f t) c = some (dsetsOf f t c) :=
    isSome_eq_some ((hwf.2.2 t ht c hc).1)
  have hlen : i < (dsetsOf f t c).length :=
    lt_of_lt_of_le hi (hwf.2.2 t ht c hc).2
  unfold sourceCells
  simp only [h3, h4, getElem?_eq_getD hlen dfltDS]

theorem lookupS_pureArrays (f : H5File) (t : String) (ht : t ∈ tseries_keys f) :
    lookupS (pureArrays f) t =
      some ((channel_keys f).map (fun c => (c, levelList f t c))) :=
  lookupS_map_self _ _ t ht

theorem lookupS_pureRow (f : H5File) (t c : String) (hc : c ∈ channel_keys f) :
    lookupS ((channel_keys f).map (fun c2 => (c2, levelList f t c2))) c =
      some (levelList f t c) :=
  lookupS_map_self _ _ c hc

theorem getDset_pure (f : H5File) (t0 c0 : String)
    (ht : t0 ∈ tseries_keys f) (hc : c0 ∈ channel_keys f) (i : Nat) :
    getDset (pureArrays f) t0 c0 i =
      match (levelList f t0 c0)[i]? with
      | none => .error .indexError
      | some d => .ok d := by
  unfold getDset
  simp only [lookupS_pureArrays f t0 ht, lookupS_pureRow f t0 c0 hc]

theorem getitem_eq_of_WF (f : H5File) (hwf : WF f) (res t ch : Int) (z y x : Slice)
    (tk ck : String) (htk : pyIndex (tseries_keys f) t = some tk)
    (hck : pyIndex (channel_keys f) ch = some ck) :
    getitem f res t ch z y x =
      match pyIndex (levelList f tk ck) res with
      | none => .error .indexError
      | some ds => .ok (sliceCells z y x ds.cells) := by
  unfold getitem
  simp only [htk, hck, arraysE_of_WF f hwf,
    lookupS_pureArrays f tk (pyIndex_mem htk),
    lookupS_pureRow f tk ck (pyIndex_mem hck)]

theorem toZarrLoop_preserves (f : H5File) (hwf : WF f) (t0 c0 : String)
    (ht0 : (tseries_keys f)[0]? = some t0) (hc0 : (channel_keys f)[0]? = some c0) :
    ∀ (ms : List Nat) (store st : Store) (j : Nat) (a : ZArray),
      lookupN store j = some a → toZarrLoop f ms store = .ok st →
      lookupN st j = some a := by
  intro ms
  induction ms with
  | nil =>
    intro store st j a hj hok
    simp only [toZarrLoop] at hok
    cases hok
    exact hj
  | cons i rest ih =>
    intro store st j a hj hok
    simp only [toZarrLoop, arraysE_of_WF f hwf, ht0, hc0] at hok
    cases hd : getDset (pureArrays f) t0 c0 i with
    | error e => rw [hd] at hok; cases hok
    | ok dset =>
      rw [hd] at hok
      cases hstore : lookupN store i with
      | some b => rw [hstore] at hok; cases hok
      | none =>
        rw [hstore] at hok
        have hij : ¬ (i = j) := by
          intro hji
          rw [hji, hj] at hstore
          cases hstore
        have hj2 : lookupN
            ((i, mkLevelArray (num_tseries f) (num_channels f) dset) :: store) j =
            some a := by
          simp only [lookupN, if_neg hij]
          exact hj
        exact ih _ _ j a hj2 hok

theorem toZarrLoop_mem (f : H5File) (hwf : WF f) (t0 c0 : String)
    (ht0 : (tseries_keys f)[0]? = some t0) (hc0 : (channel_keys f)[0]? = some c0) :
    ∀ (ms : List Nat) (store st : Store),
      toZarrLoop f ms store = .ok st → ∀ i ∈ ms,
        ∃ dset, sourceCells f t0 c0 i = some dset ∧
          lookupN st i = some (mkLevelArray (num_tseries f) (num_channels f) dset) := by
  intro ms
  induction ms with
  | nil =>
    intro store st hok i hi
    cases hi
  | cons k rest ih =>
    intro store st hok i hi
    simp only [toZarrLoop, arraysE_of_WF f hwf, ht0, hc0] at hok
    cases hd : getDset (pureArrays f) t0 c0 k with
    | error e => rw [hd] at hok; cases hok
    | ok dset =>
      rw [hd] at hok
      cases hstore : lookupN store k with
      | some b => rw [hstore] at hok; cases hok
      | none =>
        rw [hstore] at hok
        have ht0m : t0 ∈ tseries_keys f := getElem?_mem_of_eq ht0
        have hc0m : c0 ∈ channel_keys f := getElem?_mem_of_eq hc0
        have hd2 := hd
        rw [getDset_pure f t0 c0 ht0m hc0m k] at hd2
        cases hlv : (levelList f t0 c0)[k]? with
        | none => rw [hlv] at hd2; cases hd2
        | some d =>
          rw [hlv] at hd2
          injection hd2 with hdd
          have hklt : k < (sctab f c0).length := by
            by_contra hge
            rw [levelList_getElem?, if_neg hge] at hlv
            cases hlv
          have hval : d = (dsetsOf f t0 c0).getD k dfltDS := by
            rw [levelList_getElem?, if_pos hklt] at hlv
            injection hlv with h
            exact h.symm
          have hsrc : sourceCells f t0 c0 k = some dset := by
            rw [sourceCells_of_WF f hwf t0 c0 ht0m hc0m k hklt, ← hval, hdd]
          rcases List.mem_cons.mp hi with hik | hirest
          · subst hik
            refine ⟨dset, hsrc, ?_⟩
            have hbase : lookupN
                ((i, mkLevelArray (num_tseries f) (num_channels f) dset) :: store) i =
                some (mkLevelArray (num_tseries f) (num_channels f) dset) := by
              simp [lookupN]
            exact toZarrLoop_preserves f hwf t0 c0 ht0 hc0 rest _ st i _ hbase hok
          · exact ih _ st hok i hirest

theorem multiscalesE_eq_ok (f : H5File) (scs : List (String × List (List Int)))
    (h : scalesE f = .ok scs) :
    multiscalesE f =
      match scs.map (fun p => p.2.length) with
      | [] => .ok []
      | l :: rest =>
        if rest.all (fun x => x == l) then .ok (List.range l) else .ok (l :: rest) := by
  unfold multiscalesE
  rw [h]

theorem multiscalesE_uniform (f : H5File) (scs : List (String × List (List Int)))
    (L : Nat) (h : scalesE f = .ok scs) (hne : scs ≠ [])
    (hall : ∀ p ∈ scs, p.2.length = L) :
    multiscalesE f = .ok (List.range L) := by
  rw [multiscalesE_eq_ok f scs h]
  cases hs : scs.map (fun p => p.2.length) with
  | nil =>
    cases scs with
    | nil => exact absurd rfl hne
    | cons a as => cases hs
  | cons l rest =>
    have hmem : ∀ x ∈ scs.map (fun p => p.2.length), x = L := by
      intro x hx
      rcases List.mem_map.mp hx with ⟨p, hp, hpx⟩
      rw [← hpx]
      exact hall p hp
    have hl : l = L := hmem l (by rw [hs]; exact List.mem_cons_self l rest)
    have hrest : rest.all (fun x => x == l) = true := by
      rw [List.all_eq_true]
      intro x hx
      have : x = L := hmem x (by rw [hs]; exact List.mem_cons_of_mem l hx)
      rw [this, hl]
      exact beq_self_eq_true L
    have hred : (match l :: rest with
        | [] => (Except.ok [] : Except Err (List Nat))
        | l :: rest =>
          if rest.all (fun x => x == l) then Except.ok (List.range l)
          else Except.ok (l :: rest)) =
        (if rest.all (fun x => x == l) then Except.ok (List.range l)
         else Except.ok (l :: rest)) := rfl
    rw [hred, if_pos hrest, hl]

theorem multiscalesE_divergent (f : H5File) (scs : List (String × List (List Int)))
    (h : scalesE f = .ok scs)
    (hdiv : ∃ p ∈ scs, ∃ q ∈ scs, p.2.length ≠ q.2.length) :
    multiscalesE f = .ok (scs.map (fun p => p.2.length)) := by
  rw [multiscalesE_eq_ok f scs h]
  cases hs : scs.map (fun p => p.2.length) with
  | nil =>
    rcases hdiv with ⟨p, hp, _⟩
    cases scs with
    | nil => cases hp
    | cons a as => cases hs
  | cons l rest =>
    have hcond : ¬ (rest.all (fun x => x == l) = true) := by
      intro hall
      have hallm : ∀ x ∈ scs.map (fun p => p.2.length), x = l := by
        intro x hx
        rw [hs] at hx
        rcases List.mem_cons.mp hx with h1 | h1
        · exact h1
        · exact (beq_iff_eq).mp (List.all_eq_true.mp hall x h1)
      rcases hdiv with ⟨p, hp, q, hq, hne⟩
      have hpl := hallm _ (List.mem_map_of_mem (fun r => r.2.length) hp)
      have hql := hallm _ (List.mem_map_of_mem (fun r => r.2.length) hq)
      exact hne (hpl.trans hql.symm)
    have hred : (match l :: rest with
        | [] => (Except.ok [] : Except Err (List Nat))
        | l :: rest =>
          if rest.all (fun x => x == l) then Except.ok (List.range l)
          else Except.ok (l :: rest)) =
        (if rest.all (fun x => x == l) then Except.ok (List.range l)
         else Except.ok (l :: rest)) := rfl
    rw [hred, if_neg hcond]

theorem toZarr_eq (f : H5File) (ow : Bool) (store : Store) (ms : List Nat)
    (hms : multiscalesE f = .ok ms) :
    toZarr f ow store = toZarrLoop f ms (if ow then [] else store) := by
  unfold toZarr
  rw [hms]

theorem pyIndex_nonneg (l : List α) (i : Int) (h : 0 ≤ i) : pyIndex l i = l[i.toNat]? := by
  have h2 : ¬ i < 0 := by omega
  simp only [pyIndex, if_neg h2]

/-- C2: for every discovered (time, channel, resolution) triple within range
and every spatial slice triple, `__getitem__` returns exactly the data
obtained by directly slicing the source dataset at path
`<time>/<channel>/<level>/cells` with the same (z, y, x) slices. -/
theorem c2_getitem_matches_source (f : H5File) (hwf : WF f) (t ch res : Nat)
    (z y x : Slice) (tk ck : String)
    (htk : (tseries_keys f)[t]? = some tk) (hck : (channel_keys f)[ch]? = some ck)
    (hres : res < (sctab f ck).length) :
    ∃ ds, sourceCells f tk ck res = some ds ∧
      getitem f res t ch z y x = .ok (sliceCells z y x ds.cells) := by
  have htk2 : pyIndex (tseries_keys f) (t : Int) = some tk := by
    rw [pyIndex_coe_nat]; exact htk
  have hck2 : pyIndex (channel_keys f) (ch : Int) = some ck := by
    rw [pyIndex_coe_nat]; exact hck
  have hres2 : pyIndex (levelList f tk ck) (res : Int) =
      some ((dsetsOf f tk ck).getD res dfltDS) := by
    rw [pyIndex_coe_nat, levelList_getElem?, if_pos hres]
  refine ⟨(dsetsOf f tk ck).getD res dfltDS, ?_, ?_⟩
  · exact sourceCells_of_WF f hwf tk ck (getElem?_mem_of_eq htk)
      (getElem?_mem_of_eq hck) res hres
  · rw [getitem_eq_of_WF f hwf res t ch z y x tk ck htk2 hck2, hres2]

/-- Witness for C2 at the concrete container `fA`. -/
theorem c2_witness :
    ∃ ds, sourceCells fA "t00000" "s01" 1 = some ds ∧
      getitem fA 1 0 1 ⟨0, 1⟩ ⟨0, 1⟩ ⟨0, 1⟩ =
        .ok (sliceCells ⟨0, 1⟩ ⟨0, 1⟩ ⟨0, 1⟩ ds.cells) :=
  c2_getitem_matches_source fA (by decide) 0 1 1 ⟨0, 1⟩ ⟨0, 1⟩ ⟨0, 1⟩ "t00000" "s01"
    (by decide) (by decide) (by decide)

/-- C8 (amended): `__getitem__` fails with an IndexError exactly when the
resolution, time, or channel position falls outside the Python sequence
range `-n .. n-1` of the respective discovered sequence (not the narrower
range `0 .. n-1` the claim states). -/
theorem c8_out_of_range_index_error (f : H5File) (res t ch : Int) (z y x : Slice) :
    ((t < -(num_tseries f : Int) ∨ (num_tseries f : Int) ≤ t) →
      getitem f res t ch z y x = .error .indexError) ∧
    (∀ tk, pyIndex (tseries_keys f) t = some tk →
      (ch < -(num_channels f : Int) ∨ (num_channels f : Int) ≤ ch) →
      getitem f res t ch z y x = .error .indexError) ∧
    (WF f → ∀ tk ck, pyIndex (tseries_keys f) t = some tk →
      pyIndex (channel_keys f) ch = some ck →
      (res < -(((sctab f ck).length : Int)) ∨ (((sctab f ck).length : Int)) ≤ res) →
      getitem f res t ch z y x = .error .indexError) := by
  refine ⟨?_, ?_, ?_⟩
  · intro h
    simp only [getitem, pyIndex_none (tseries_keys f) t h]
  · intro tk htk h
    simp only [getitem, htk, pyIndex_none (channel_keys f) ch h]
  · intro hwf tk ck htk hck h
    rw [getitem_eq_of_WF f hwf res t ch z y x tk ck htk hck]
    have h2 : res < -(((levelList f tk ck).length : Int)) ∨
        (((levelList f tk ck).length : Int)) ≤ res := by
      rw [levelList_length]; exact h
    rw [pyIndex_none (levelList f tk ck) res h2]

/-- Witness for C8 at the concrete container `fA` (time index 5 ≥ T = 1). -/
theorem c8_witness : getitem fA 0 5 0 ⟨0, 1⟩ ⟨0, 1⟩ ⟨0, 2⟩ = .error .indexError :=
  (c8_out_of_range_index_error fA 0 5 0 ⟨0, 1⟩ ⟨0, 1⟩ ⟨0, 2⟩).1 (by decide)

/-- C8 counterexample: time index −1 is outside `0 .. T-1` (here T = 1), yet
`__getitem__` returns data instead of raising. -/
theorem c8_counterexample :
    getitem fA 0 (-1) 0 ⟨0, 1⟩ ⟨0, 1⟩ ⟨0, 2⟩ = .ok [[[10, 11]]] := by decide

/-- C10: negative time and channel indices in `-n .. -1` do not raise; they
resolve to the discovered key at position `n + index`, exactly as the
corresponding non-negative positional read does. -/
theorem c10_negative_time_channel (f : H5File) (hwf : WF f) (t ch : Int) (res : Nat)
    (z y x : Slice) (tk ck : String)
    (ht1 : -(num_tseries f : Int) ≤ t) (ht2 : t < 0)
    (hc1 : -(num_channels f : Int) ≤ ch) (hc2 : ch < 0)
    (htk : (tseries_keys f)[(t + num_tseries f).toNat]? = some tk)
    (hck : (channel_keys f)[(ch + num_channels f).toNat]? = some ck)
    (hres : res < (sctab f ck).length) :
    ∃ ds, sourceCells f tk ck res = some ds ∧
      getitem f res t ch z y x = .ok (sliceCells z y x ds.cells) ∧
      getitem f res t ch z y x =
        getitem f res (t + num_tseries f) (ch + num_channels f) z y x := by
  have htk2 : pyIndex (tseries_keys f) t = some tk := by
    rw [pyIndex_neg_eq (tseries_keys f) t ht1 ht2]
    exact htk
  have hck2 : pyIndex (channel_keys f) ch = some ck := by
    rw [pyIndex_neg_eq (channel_keys f) ch hc1 hc2]
    exact hck
  have htk3 : pyIndex (tseries_keys f) (t + num_tseries f) = some tk := by
    rw [pyIndex_nonneg (tseries_keys f) _ (by omega)]
    exact htk
  have hck3 : pyIndex (channel_keys f) (ch + num_channels f) = some ck := by
    rw [pyIndex_nonneg (channel_keys f) _ (by omega)]
    exact hck
  have hres2 : pyIndex (levelList f tk ck) (res : Int) =
      some ((dsetsOf f tk ck).getD res dfltDS) := by
    rw [pyIndex_coe_nat, levelList_getElem?, if_pos hres]
  refine ⟨(dsetsOf f tk ck).getD res dfltDS, ?_, ?_, ?_⟩
  · exact sourceCells_of_WF f hwf tk ck (pyIndex_mem htk2) (pyIndex_mem hck2) res hres
  · rw [getitem_eq_of_WF f hwf res t ch z y x tk ck htk2 hck2, hres2]
  · rw [getitem_eq_of_WF f hwf res t ch z y x tk ck htk2 hck2,
      getitem_eq_of_WF f hwf res _ _ z y x tk ck htk3 hck3]

/-- Witness for C10 at the concrete container `fA` (t = −1, ch = −2). -/
theorem c10_witness :
    ∃ ds, sourceCells fA "t00000" "s00" 0 = some ds ∧
      getitem fA 0 (-1) (-2) ⟨0, 1⟩ ⟨0, 1⟩ ⟨0, 2⟩ =
        .ok (sliceCells ⟨0, 1⟩ ⟨0, 1⟩ ⟨0, 2⟩ ds.cells) ∧
      getitem fA 0 (-1) (-2) ⟨0, 1⟩ ⟨0, 1⟩ ⟨0, 2⟩ =
        getitem fA 0 ((-1) + num_tseries fA) ((-2) + num_channels fA)
          ⟨0, 1⟩ ⟨0, 1⟩ ⟨0, 2⟩ :=
  c10_negative_time_channel fA (by decide) (-1) (-2) 0 ⟨0, 1⟩ ⟨0, 1⟩ ⟨0, 2⟩
    "t00000" "s00" (by decide) (by decide) (by decide) (by decide)
    (by decide) (by decide) (by decide)

/-- C3: every destination array `to_zarr` creates at level `i` has shape
`(T, C, *spatial_shape_i)` and chunk shape `(1, 1, *spatial_chunks_i)`,
where `T` and `C` are the discovered counts and the spatial parts come from
the representative (first time point, first channel) dataset at level `i`. -/
theorem c3_destination_geometry (f : H5File) (ow : Bool) (s st : Store)
    (ms : List Nat) (t0 c0 : String) (hwf : WF f)
    (ht0 : (tseries_keys f)[0]? = some t0) (hc0 : (channel_keys f)[0]? = some c0)
    (hms : multiscalesE f = .ok ms) (hok : toZarr f ow s = .ok st)
    (i : Nat) (hi : i ∈ ms) :
    ∃ dset arr, sourceCells f t0 c0 i = some dset ∧ lookupN st i = some arr ∧
      arr.shape = num_tseries f :: num_channels f :: dset.shape ∧
      arr.chunks = 1 :: 1 :: dset.chunks := by
  rw [toZarr_eq f ow s ms hms] at hok
  rcases toZarrLoop_mem f hwf t0 c0 ht0 hc0 ms _ st hok i hi with ⟨dset, hsrc, hlook⟩
  exact ⟨dset, mkLevelArray (num_tseries f) (num_channels f) dset, hsrc, hlook,
    rfl, rfl⟩

/-- Witness for C3 at the concrete container `fA`, level 0. -/
theorem c3_witness :
    ∃ dset arr, sourceCells fA "t00000" "s00" 0 = some dset ∧
      lookupN stA 0 = some arr ∧
      arr.shape = num_tseries fA :: num_channels fA :: dset.shape ∧
      arr.chunks = 1 :: 1 :: dset.chunks :=
  c3_destination_geometry fA true [] stA [0, 1] "t00000" "s00" (by decide)
    (by decide) (by decide) (by decide) (by decide) 0 (by decide)

/-- C4: the multiscale level-count policy — if every discovered channel's
scale table has the same length `L`, the exposed value is the level-index
sequence `0 .. L-1`; if the per-channel lengths differ, the exposed value is
the list of each channel's own level count, untruncated. -/
theorem c4_multiscales_policy (f : H5File) (scs : List (String × List (List Int)))
    (h : scalesE f = .ok scs) :
    (∀ L : Nat, scs ≠ [] → (∀ p ∈ scs, p.2.length = L) →
      multiscalesE f = .ok (List.range L)) ∧
    ((∃ p ∈ scs, ∃ q ∈ scs, p.2.length ≠ q.2.length) →
      multiscalesE f = .ok (scs.map (fun p => p.2.length))) :=
  ⟨fun L hne hall => multiscalesE_uniform f scs L h hne hall,
   fun hdiv => multiscalesE_divergent f scs h hdiv⟩

/-- Witness for C4 at `fA`: both channels report two levels. -/
theorem c4_witness : multiscalesE fA = .ok (List.range 2) :=
  (c4_multiscales_policy fA
      [("s00", [[1, 1, 1], [2, 2, 2]]), ("s01", [[1, 1, 1], [2, 2, 2]])]
      (by decide)).1 2 (by decide) (by decide)

/-- C5 counterexample: `fEmpty` has no entry matching either naming
convention, yet discovery raises nothing: it returns empty key tuples
instead of failing with a `StructureError`. -/
theorem c5_counterexample :
    channel_keys fEmpty = [] ∧ tseries_keys fEmpty = [] := by decide

/-- C5 (amended): on a container with no entry matching the channel or the
time-point naming convention, discovery returns empty key sequences; no
error is raised (the code has no `StructureError`). -/
theorem c5_no_match_returns_empty (f : H5File)
    (h : ∀ k ∈ f.keys, strStarts k 's' = false ∧ strStarts k 't' = false) :
    channel_keys f = [] ∧ tseries_keys f = [] := by
  constructor
  · unfold channel_keys
    rw [List.filter_eq_nil_iff]
    intro a ha
    simp [(h a ha).1]
  · unfold tseries_keys
    rw [List.filter_eq_nil_iff]
    intro a ha
    simp [(h a ha).2]

/-- Witness for C5 at the concrete container `fEmpty2`. -/
theorem c5_witness : channel_keys fEmpty2 = [] ∧ tseries_keys fEmpty2 = [] :=
  c5_no_match_returns_empty fEmpty2 (by decide)

/-- C6 counterexample: in `fMis` channel `s01`'s level-0 dataset disagrees
with the representative `s00` dataset in both spatial shape and chunk
geometry, yet `to_zarr` succeeds using the representative's geometry
instead of failing with a `ShapeMismatchError`. -/
theorem c6_counterexample :
    toZarr fMis true [] = .ok [(0, mkLevelArray 1 2 dsM0)] ∧
    (mkLevelArray 1 2 dsM0).shape = 1 :: 2 :: dsM0.shape ∧
    sourceCells fMis "t00000" "s01" 0 = some dsM1 ∧
    dsM1.shape ≠ dsM0.shape ∧ dsM1.chunks ≠ dsM0.chunks := by decide

/-- C6 (amended): `to_zarr` performs no shape or chunk validation at all;
when channels report different resolution-level counts it fails with an
IndexError — the first channel's own count used as a list index into that
channel's level list — not with a `ShapeMismatchError`. -/
theorem c6_divergent_counts_index_error (f : H5File) (ow : Bool) (s : Store)
    (c0 : String) (cs : List String) (hwf : WF f)
    (hch : channel_keys f = c0 :: cs) (hts : tseries_keys f ≠ [])
    (hdiv : ∃ c ∈ cs, (sctab f c).length ≠ (sctab f c0).length) :
    toZarr f ow s = .error (.indexError, if ow then [] else s) := by
  have hsc : scalesE f = .ok (pureScales f) := scalesE_of_WF f hwf
  have hdiv2 : ∃ p ∈ pureScales f, ∃ q ∈ pureScales f, p.2.length ≠ q.2.length := by
    rcases hdiv with ⟨c, hc, hne⟩
    refine ⟨(c, sctab f c), ?_, (c0, sctab f c0), ?_, hne⟩
    · exact List.mem_map_of_mem _ (by rw [hch]; exact List.mem_cons_of_mem c0 hc)
    · exact List.mem_map_of_mem _ (by rw [hch]; exact List.mem_cons_self c0 cs)
  have hms : multiscalesE f = .ok ((pureScales f).map (fun p => p.2.length)) :=
    multiscalesE_divergent f (pureScales f) hsc hdiv2
  have hmsl : (pureScales f).map (fun p => p.2.length) =
      (sctab f c0).length :: cs.map (fun c => (sctab f c).length) := by
    unfold pureScales
    rw [hch]
    simp [List.map_map, Function.comp]
  obtain ⟨t0, ts, hts2⟩ : ∃ t0 ts, tseries_keys f = t0 :: ts := by
    cases h : tseries_keys f with
    | nil => exact absurd h hts
    | cons a as => exact ⟨a, as, rfl⟩
  have ht0 : (tseries_keys f)[0]? = some t0 := by
    rw [hts2]; exact List.getElem?_cons_zero
  have hc0 : (channel_keys f)[0]? = some c0 := by
    rw [hch]; exact List.getElem?_cons_zero
  rw [toZarr_eq f ow s _ hms, hmsl]
  simp only [toZarrLoop, arraysE_of_WF f hwf, ht0, hc0]
  have hget : getDset (pureArrays f) t0 c0 ((sctab f c0).length) =
      .error .indexError := by
    rw [getDset_pure f t0 c0 (getElem?_mem_of_eq ht0) (getElem?_mem_of_eq hc0),
      levelList_getElem?, if_neg (lt_irrefl _)]
  rw [hget]

/-- Witness for C6 at the concrete divergent container `fDiv`. -/
theorem c6_witness : toZarr fDiv false [] = .error (.indexError, []) :=
  c6_divergent_counts_index_error fDiv false [] "s00" ["s01"] (by decide)
    (by decide) (by decide) ⟨"s01", by decide, by decide⟩

/-- C7: running `to_zarr` without overwrite against a destination already
holding the first level's array fails with zarr's ContainsArrayError (the
concrete realization of `DestinationExistsError`) and leaves the
destination store unchanged. -/
theorem c7_no_overwrite_fails_unchanged (f : H5File) (s : Store) (i0 : Nat)
    (ms2 : List Nat) (t0 c0 : String) (hwf : WF f)
    (ht0 : (tseries_keys f)[0]? = some t0) (hc0 : (channel_keys f)[0]? = some c0)
    (hms : multiscalesE f = .ok (i0 :: ms2)) (hi0 : i0 < (sctab f c0).length)
    (hex : (lookupN s i0).isSome) :
    toZarr f false s = .error (.containsArrayError, s) := by
  rw [toZarr_eq f false s _ hms]
  have hred : (if false then ([] : Store) else s) = s := rfl
  rw [hred]
  simp only [toZarrLoop, arraysE_of_WF f hwf, ht0, hc0]
  have hget : getDset (pureArrays f) t0 c0 i0 =
      .ok ((dsetsOf f t0 c0).getD i0 dfltDS) := by
    rw [getDset_pure f t0 c0 (getElem?_mem_of_eq ht0) (getElem?_mem_of_eq hc0),
      levelList_getElem?, if_pos hi0]
  rw [hget]
  cases hl : lookupN s i0 with
  | none => simp [hl] at hex
  | some a => rfl

/-- Witness for C7 at `fA` with a destination already holding array `0`. -/
theorem c7_witness :
    toZarr fA false [(0, mkLevelArray 1 2 dsA0)] =
      .error (.containsArrayError, [(0, mkLevelArray 1 2 dsA0)]) :=
  c7_no_overwrite_fails_unchanged fA [(0, mkLevelArray 1 2 dsA0)] 0 [1]
    "t00000" "s00" (by decide) (by decide) (by decide) (by decide) (by decide)
    (by decide)

/-- C9: with overwrite enabled the store `to_zarr` produces is a function of
the source alone — re-running it on any prior destination state, in
particular on the store the first run produced, yields a bit-identical
result. -/
theorem c9_overwrite_deterministic (f : H5File) (s1 s2 : Store) :
    toZarr f true s1 = toZarr f true s2 := rfl

/-- C1 (code bug): `to_zarr` writes the representative (first time point,
first channel) dataset into every (t, ch) destination slot.  In `fA` the
level-0 destination slot [0, 1] holds `s00`'s data `dsA0.cells` instead of
`s01`'s own data `dsB0.cells`. -/
theorem c1_copy_writes_representative_everywhere :
    toZarr fA true [] = .ok stA ∧
    lookupN stA 0 = some (mkLevelArray 1 2 dsA0) ∧
    ((mkLevelArray 1 2 dsA0).data.getD 0 []).getD 1 [] = dsA0.cells ∧
    sourceCells fA "t00000" "s01" 0 = some dsB0 ∧
    dsA0.cells ≠ dsB0.cells := by decide
